import Mathlib

/-!
Verification of the record-store / validation / search / statistics core of a
client-side personal finance tracker (vanilla JavaScript).

The repository contains two parallel store variants:
* `SCRIPTS/state.js` + `SCRIPTS/validators.js` (a store whose `create`/`update`
  run the composite validator `validateRecord` before committing), and
* an unnamed `state.js` (`unnamed/part_001`) + the validator half of
  `SCRIPTS/storage.js` (field validators `validateDescription`, `validateAmount`,
  `validateCategory`, `validateDate`, composite `validateTransaction`), where the
  store mutators themselves do not validate and the UI layer
  (`unnamed/part_002`) validates before calling them.

Modelling conventions, used throughout:
* Strings are Lean `String`s; validators work on `List Char`.  JavaScript's
  `string.length` counts UTF-16 units while `List.length` counts code points;
  they agree on the BMP inputs considered here.
* Monetary values are modelled exactly in hundredths (cents) as `Int` / `Nat`.
  All amount strings the validators accept have at most two decimal digits, and
  for such magnitudes the JavaScript double comparisons with `0` and `999999`
  performed by the source agree with exact rational comparison, so the exact
  model is faithful where it is used.
* Wall-clock time (`Date.now()`, `new Date()`) is abstracted: fresh ids and the
  date-window checks are parameters of the operations that use them.
  `createdAt`/`updatedAt` timestamps are not modelled; no claim mentions them.
-/

/-! ## JavaScript character classes -/

/-- The whitespace class used by JavaScript `String.prototype.trim` and the
regex class `\s` (the common members; exotic Unicode space separators behave
the same way and never occur in the inputs considered). -/
def jsWs (c : Char) : Bool :=
  c = ' ' || c = '\t' || c = '\n' || c = '\r' ||
  c = Char.ofNat 0x0b || c = Char.ofNat 0x0c ||
  c = Char.ofNat 0xa0 || c = Char.ofNat 0xfeff

/-- ASCII digit, the regex class `\d`. -/
def jsDigit (c : Char) : Bool := '0' ≤ c && c ≤ '9'

/-- ASCII letter, the class `[A-Za-z]` of the category pattern. -/
def jsLetter (c : Char) : Bool := ('A' ≤ c && c ≤ 'Z') || ('a' ≤ c && c ≤ 'z')

/-- Word character, the regex class `\w` = `[A-Za-z0-9_]`. -/
def jsWord (c : Char) : Bool := jsLetter c || jsDigit c || c = '_'

/-- What the regex metacharacter `.` matches (anything but a line terminator). -/
def jsDot (c : Char) : Bool :=
  !(c = '\n' || c = '\r' || c = Char.ofNat 0x2028 || c = Char.ofNat 0x2029)

/-- ASCII lower-casing, the case folding relevant to the `i` flag on the
letter inputs considered. -/
def lowerAscii (c : Char) : Char :=
  if 'A' ≤ c && c ≤ 'Z' then Char.ofNat (c.toNat + 32) else c

/-! ## `trim` and the `\s{2,}` collapse -/

/-- `value.trim()` on a character list: drop JS whitespace at both ends. -/
def jsTrim (l : List Char) : List Char :=
  ((l.dropWhile jsWs).reverse.dropWhile jsWs).reverse

/-- `value.replace(/\s{2,}/g, ' ')`: every maximal whitespace run of length at
least two becomes a single space; an isolated whitespace character (even a tab)
is kept as it is.  Implemented right-to-left with one character of lookahead:
when a whitespace character is followed by another whitespace character, the
already-collapsed representative of that run (the head of the recursive
result) is replaced by a single `' '`. -/
def collapseWs : List Char → List Char
  | [] => []
  | [c] => [c]
  | c :: d :: rest =>
    let p := collapseWs (d :: rest)
    if jsWs c then
      if jsWs d then ' ' :: p.tail else c :: p
    else
      c :: p

/-- `String(x || '').trim().replace(/\s{2,}/g, ' ')`, the description cleaning
step shared by `create`/`update` in `SCRIPTS/state.js` and by
`validateRecord` in `SCRIPTS/validators.js`. -/
def cleanDescription (s : String) : List Char := collapseWs (jsTrim s.toList)

/-! ## The shared regex patterns, as decidable functions on `List Char` -/

/-- The integer part `(0|[1-9]\d*)` of both amount patterns: the single digit
`0`, or a nonzero digit followed by digits. -/
def intPartOk : List Char → Bool
  | [] => false
  | c :: cs => (c = '0' && cs.isEmpty) || (('1' ≤ c && c ≤ '9') && cs.all jsDigit)

/-- `/^(0|[1-9]\d*)(\.\d{2})?$/` — `REGEX_PATTERNS.amount` in the validator
half of `SCRIPTS/storage.js`: monetary string with no superfluous leading zero
and, if a decimal point is present, exactly two decimal digits. -/
def amountShape2 (l : List Char) : Bool :=
  let ip := l.takeWhile (· ≠ '.')
  let rest := l.dropWhile (· ≠ '.')
  intPartOk ip &&
    (match rest with
     | [] => true
     | '.' :: ds => ds.length = 2 && ds.all jsDigit
     | _ => false)

/-- `/^(0|[1-9]\d*)(\.\d{1,2})?$/` — `patterns.amount` in
`SCRIPTS/validators.js`: same shape but one or two decimal digits. -/
def amountShape12 (l : List Char) : Bool :=
  let ip := l.takeWhile (· ≠ '.')
  let rest := l.dropWhile (· ≠ '.')
  intPartOk ip &&
    (match rest with
     | [] => true
     | '.' :: ds => (ds.length = 1 || ds.length = 2) && ds.all jsDigit
     | _ => false)

/-- Digit run to a natural number. -/
def digitsToNat (l : List Char) : Nat :=
  l.foldl (fun n c => n * 10 + (c.toNat - '0'.toNat)) 0

/-- Exact value, in cents, of an amount string that matched `amountShape2`
(`parseFloat` of such a string, scaled by 100; exact for at most two decimal
digits). -/
def centsOf (l : List Char) : Nat :=
  let ip := l.takeWhile (· ≠ '.')
  let rest := l.dropWhile (· ≠ '.')
  digitsToNat ip * 100 +
    (match rest with
     | '.' :: ds => if ds.length = 2 then digitsToNat ds else digitsToNat ds * 10
     | _ => 0)

/-- `/^\d{4}-(0[1-9]|1[0-2])-(0[1-9]|[12]\d|3[01])$/` — the date pattern shared
by `SCRIPTS/validators.js` and the validator half of `SCRIPTS/storage.js`. -/
def datePattern (l : List Char) : Bool :=
  match l with
  | [y1, y2, y3, y4, h1, m1, m2, h2, d1, d2] =>
    jsDigit y1 && jsDigit y2 && jsDigit y3 && jsDigit y4 &&
    h1 = '-' && h2 = '-' &&
    ((m1 = '0' && '1' ≤ m2 && m2 ≤ '9') || (m1 = '1' && (m2 = '0' || m2 = '1' || m2 = '2'))) &&
    ((d1 = '0' && '1' ≤ d2 && d2 ≤ '9') || ((d1 = '1' || d1 = '2') && jsDigit d2) ||
      (d1 = '3' && (d2 = '0' || d2 = '1')))
  | _ => false

/-- `/^[A-Za-z]+(?:[ -][A-Za-z]+)*$/` — letter runs separated by single spaces
or hyphens, the category pattern shared by both validator files. -/
def categoryPattern (l : List Char) : Bool :=
  match l with
  | [] => false
  | [c] => jsLetter c
  | c :: d :: rest =>
    jsLetter c && (if d = ' ' || d = '-' then categoryPattern rest else categoryPattern (d :: rest))

/-- `/^\S(?:.*\S)?$/` — `REGEX_PATTERNS.description` in the validator half of
`SCRIPTS/storage.js`.  Because `.` cannot match a line terminator and `\S` is a
single character, a full match is: one non-whitespace character, or a
non-whitespace character, then line-terminator-free filler, then a
non-whitespace character.  Interior double spaces are matched by `.*`. -/
def descPattern (l : List Char) : Bool :=
  match l with
  | [] => false
  | [c] => !jsWs c
  | c :: rest =>
    !jsWs c && rest.dropLast.all jsDot && !jsWs (rest.getLastD ' ')

/-- `/\b(\w+)\s+\1\b/i` — `REGEX_PATTERNS.duplicateWord`.  With the mandatory
word boundaries and the mandatory whitespace separator, the pattern has a match
exactly when two consecutive maximal word-character runs, separated by pure
whitespace, are equal up to ASCII case.  The scan below walks the maximal runs
left to right. -/
def dupGo : List Char → Option (List Char) → Bool → List Char → Bool
  | [], prev, sepWs, cur =>
    match cur, prev with
    | _ :: _, some p => sepWs && decide (p.map lowerAscii = cur.map lowerAscii)
    | _, _ => false
  | c :: rest, prev, sepWs, cur =>
    if jsWord c then
      dupGo rest prev sepWs (c :: cur)
    else
      match cur with
      | [] => dupGo rest prev (sepWs && jsWs c) []
      | _ :: _ =>
        match prev with
        | some p =>
          if sepWs && decide (p.map lowerAscii = cur.map lowerAscii) then true
          else dupGo rest (some cur) (jsWs c) []
        | none => dupGo rest (some cur) (jsWs c) []

/-- `/\b(\w+)\s+\1\b/i` — `REGEX_PATTERNS.duplicateWord`.  With the mandatory
word boundaries and the mandatory whitespace separator, the pattern has a match
exactly when two consecutive maximal word-character runs, separated by pure
whitespace, are equal up to ASCII case.  `dupGo` scans once, carrying the
previous completed word (`prev`, in reversed order), whether every separator
character since it was whitespace (`sepWs`), and the reversed accumulator of
the current word (`cur`); a word completes at a non-word character or at the
end of the input, at which point it is compared with its predecessor. -/
def dupScan (l : List Char) : Bool := dupGo l none false []

/-! ## Field validators (validator half of `SCRIPTS/storage.js`) -/

/-- The `{isValid, error}` result shape of the field validators. -/
structure VResult where
  isValid : Bool
  error : String
deriving Repr, DecidableEq

/-- `validateDescription` from the validator half of `SCRIPTS/storage.js`:
required; no leading/trailing spaces; the description pattern; no duplicate
word; length between 3 and 100. -/
def validateDescription (value : String) : VResult :=
  let l := value.toList
  if l.isEmpty || (jsTrim l).isEmpty then
    ⟨false, "Description is required"⟩
  else if l ≠ jsTrim l then
    ⟨false, "Description cannot have leading or trailing spaces"⟩
  else if !descPattern l then
    ⟨false, "Description cannot have double spaces"⟩
  else if dupScan l then
    ⟨false, "Description has duplicate words"⟩
  else if l.length < 3 then
    ⟨false, "Description must be at least 3 characters"⟩
  else if l.length > 100 then
    ⟨false, "Description must be less than 100 characters"⟩
  else
    ⟨true, ""⟩

/-- `validateAmount` from the validator half of `SCRIPTS/storage.js`:
required; the two-decimal amount pattern; `parseFloat` value at most 999999 and
not zero (numeric comparisons modelled exactly in cents). -/
def validateAmount (value : String) : VResult :=
  let l := value.toList
  if l.isEmpty || (jsTrim l).isEmpty then
    ⟨false, "Amount is required"⟩
  else if !amountShape2 l then
    ⟨false, "Amount must be a valid number (e.g., 12.50)"⟩
  else if centsOf l > 99999900 then
    ⟨false, "Amount is too large"⟩
  else if centsOf l = 0 then
    ⟨false, "Amount must be greater than 0"⟩
  else
    ⟨true, ""⟩

/-- `validateCategory` from the validator half of `SCRIPTS/storage.js`. -/
def validateCategory (value : String) : VResult :=
  let l := value.toList
  if l.isEmpty || (jsTrim l).isEmpty then
    ⟨false, "Category is required"⟩
  else if !categoryPattern l then
    ⟨false, "Category can only contain letters, spaces, and hyphens"⟩
  else
    ⟨true, ""⟩

/-- `validateDate` from the validator half of `SCRIPTS/storage.js`.  The two
`Date` comparisons against the current clock (more than one year in the
future / more than ten years in the past) are abstracted as the boolean
parameters `tooFuture` and `tooPast`. -/
def validateDate (tooFuture tooPast : String → Bool) (value : String) : VResult :=
  let l := value.toList
  if l.isEmpty || (jsTrim l).isEmpty then
    ⟨false, "Date is required"⟩
  else if !datePattern l then
    ⟨false, "Date must be in YYYY-MM-DD format"⟩
  else if tooFuture value then
    ⟨false, "Date cannot be more than 1 year in the future"⟩
  else if tooPast value then
    ⟨false, "Date cannot be more than 10 years in the past"⟩
  else
    ⟨true, ""⟩

/-! ## Composite validator `validateTransaction` (validator half of `SCRIPTS/storage.js`) -/

/-- The raw form fields collected by `handleFormSubmit` in `unnamed/part_002`. -/
structure FormData where
  description : String
  amount : String
  category : String
  date : String
deriving Repr, DecidableEq

/-- The field-name → error-message mapping built by `validateTransaction`
(absent key = field valid). -/
structure FieldErrors where
  description : Option String
  amount : Option String
  category : Option String
  date : Option String
deriving Repr, DecidableEq

/-- The `{isValid, errors}` result of `validateTransaction`. -/
structure TValidation where
  isValid : Bool
  errors : FieldErrors
deriving Repr, DecidableEq

/-- `validateTransaction` from the validator half of `SCRIPTS/storage.js`:
runs the four field validators and collects the error mapping; valid iff the
mapping is empty. -/
def validateTransaction (tooFuture tooPast : String → Bool) (formData : FormData) : TValidation :=
  let de := validateDescription formData.description
  let am := validateAmount formData.amount
  let ca := validateCategory formData.category
  let da := validateDate tooFuture tooPast formData.date
  { isValid := de.isValid && am.isValid && ca.isValid && da.isValid
    errors :=
      { description := if de.isValid then none else some de.error
        amount := if am.isValid then none else some am.error
        category := if ca.isValid then none else some ca.error
        date := if da.isValid then none else some da.error } }

/-! ## `SCRIPTS/validators.js`: `validateRecord` and the `SCRIPTS/state.js` store -/

/-- A transaction record of the `SCRIPTS/state.js` store.  Its `amount` field
is a JavaScript number; every check the source performs on it goes through the
rendering `String(record.amount)`, so the record carries that rendering
(`amountStr`) directly — the number is represented by its decimal string, which
loses nothing for the validation claims.  `createdAt`/`updatedAt` are not
modelled. -/
structure RecordB where
  id : String
  description : String
  amountStr : String
  category : String
  date : String
deriving Repr, DecidableEq, Inhabited

/-- The error mapping of `validateRecord`. -/
structure RecErrors where
  description : Option String
  amount : Option String
  date : Option String
  category : Option String
deriving Repr, DecidableEq

/-- The `{ok, errors, cleaned}` result of `validateRecord`. -/
structure RecValidation where
  ok : Bool
  errors : RecErrors
  cleaned : RecordB
deriving Repr, DecidableEq

/-- `validateRecord` from `SCRIPTS/validators.js`: cleans the description
(trim + collapse whitespace runs) and checks its length, then tests the
amount (1-2 decimals pattern), date, and category patterns. -/
def validateRecord (record : RecordB) : RecValidation :=
  let desc := cleanDescription record.description
  let dErr : Option String :=
    if desc.isEmpty || desc.length < 3 || desc.length > 100 then
      some "Description must be 3–100 characters." else none
  let aErr : Option String :=
    if !amountShape12 record.amountStr.toList then
      some "Amount must be a number (max 2 decimals)." else none
  let dateErr : Option String :=
    if !datePattern record.date.toList then
      some "Date must be YYYY-MM-DD." else none
  let cErr : Option String :=
    if !categoryPattern record.category.toList then
      some "Category must be letters, spaces or hyphens only." else none
  { ok := dErr.isNone && aErr.isNone && dateErr.isNone && cErr.isNone
    errors := { description := dErr, amount := aErr, date := dateErr, category := cErr }
    cleaned := { record with description := desc.asString } }

/-- `findIndex` of JavaScript arrays (first index satisfying the predicate). -/
def jsFindIndex {α : Type} (p : α → Bool) : List α → Option Nat
  | [] => none
  | a :: t => if p a then some 0 else (jsFindIndex p t).map (· + 1)

/-- The create input of `SCRIPTS/state.js`.  `amountStr` is the rendering
`String(Number(String(data.amount).trim()) || 0)` of the number the source
stores: the `Number` parse / `String` print round trip is abstracted, the
operation receives the prepared rendering (the validator only ever sees this
rendering, so nothing is lost). -/
structure CreateData where
  description : String
  amountStr : String
  category : String
  date : String
deriving Repr, DecidableEq

/-- The record `create` in `SCRIPTS/state.js` prepares before validating:
fresh id, cleaned description, defaulted (`|| 'Other'`) and trimmed category,
defaulted date. -/
def prepareCreate (freshId defaultDate : String) (data : CreateData) : RecordB :=
  { id := freshId
    description := (cleanDescription data.description).asString
    amountStr := data.amountStr
    category := if data.category = "" then "Other" else (jsTrim data.category.toList).asString
    date := if data.date = "" then defaultDate else data.date }

/-- Result of `create` in `SCRIPTS/state.js`: `{ok: false, errors}` or
`{ok: true, record}`. -/
inductive CreateRes where
  | ok (record : RecordB)
  | err (errors : RecErrors)
deriving Repr, DecidableEq

/-- `create` from `SCRIPTS/state.js`: prepare, validate, and only on success
push the prepared record and persist. -/
def create (records : List RecordB) (freshId defaultDate : String) (data : CreateData) :
    CreateRes × List RecordB :=
  let prepared := prepareCreate freshId defaultDate data
  let validation := validateRecord prepared
  if validation.ok then (.ok prepared, records ++ [prepared])
  else (.err validation.errors, records)

/-- Partial field bag merged over an existing record by `update` in
`SCRIPTS/state.js` (`{...records[idx], ...data}`). -/
structure UpdateData where
  description : Option String
  amountStr : Option String
  category : Option String
  date : Option String
deriving Repr, DecidableEq

/-- The merge step of `update` in `SCRIPTS/state.js`: supplied fields override,
then the description is re-cleaned. -/
def mergeRecord (record : RecordB) (data : UpdateData) : RecordB :=
  { id := record.id
    description := (cleanDescription (data.description.getD record.description)).asString
    amountStr := data.amountStr.getD record.amountStr
    category := data.category.getD record.category
    date := data.date.getD record.date }

/-- Result of `update` in `SCRIPTS/state.js`. -/
inductive UpdateRes where
  | notFound
  | err (errors : RecErrors)
  | ok (record : RecordB)
deriving Repr, DecidableEq

/-- `update` from `SCRIPTS/state.js`: not-found on absent id; otherwise merge,
re-validate, and replace in place only on success. -/
def update (records : List RecordB) (id : String) (data : UpdateData) :
    UpdateRes × List RecordB :=
  match jsFindIndex (fun r => r.id = id) records with
  | none => (.notFound, records)
  | some idx =>
    let merged := mergeRecord (records.getD idx default) data
    let validation := validateRecord merged
    if validation.ok then (.ok merged, records.set idx merged)
    else (.err validation.errors, records)

/-- `remove` from `SCRIPTS/state.js`: filter out the id, report whether the
length shrank. -/
def remove (records : List RecordB) (id : String) : Bool × List RecordB :=
  let after := records.filter (fun r => r.id ≠ id)
  (after.length < records.length, after)

/-- `replaceAll` from `SCRIPTS/state.js` ("expect validated array" — no
validation is performed). -/
def replaceAll (newRecords : List RecordB) : List RecordB := newRecords

/-- `appendMany` from `SCRIPTS/state.js` (no validation). -/
def appendMany (records newRecords : List RecordB) : List RecordB :=
  records ++ newRecords

/-- States of the `SCRIPTS/state.js` store reachable from the empty store via
its validating mutators `create`/`update`, plus `remove` and `clear`.  (The
bulk setters `replaceAll`/`appendMany` are deliberately not steps here; see the
C1 theorems.) -/
inductive ReachableV : List RecordB → Prop where
  | empty : ReachableV []
  | createStep (s : List RecordB) (freshId defaultDate : String) (d : CreateData) :
      ReachableV s → ReachableV (create s freshId defaultDate d).2
  | updateStep (s : List RecordB) (id : String) (u : UpdateData) :
      ReachableV s → ReachableV (update s id u).2
  | removeStep (s : List RecordB) (id : String) :
      ReachableV s → ReachableV (remove s id).2
  | clearStep (s : List RecordB) : ReachableV s → ReachableV []

/-! ## The `unnamed/part_001` store and its UI-gated mutations -/

/-- A transaction record of the `unnamed/part_001` store.  Its `amount` is a
JavaScript number; it is modelled exactly in cents (`amountCents`), see the
header.  `createdAt`/`updatedAt` are not modelled. -/
structure RecordA where
  id : String
  description : String
  amountCents : Int
  category : String
  date : String
deriving Repr, DecidableEq, Inhabited

/-- `parseFloat` of an amount string, in cents.  It is modelled exactly on
strings accepted by the amount pattern — the only strings the gated flows ever
pass to it (`validateAmount` ran first); other strings are given the junk
value 0, which no modelled path observes. -/
def parseCents (s : String) : Int :=
  if amountShape2 s.toList then (centsOf s.toList : Int) else 0

/-- `addTransaction` from `unnamed/part_001`: builds the record (trimmed
description, parsed amount) and pushes it — no validation of its own. -/
def addTransaction (transactions : List RecordA) (freshId : String) (d : FormData) :
    RecordA × List RecordA :=
  let transaction : RecordA :=
    { id := freshId
      description := (jsTrim d.description.toList).asString
      amountCents := parseCents d.amount
      category := d.category
      date := d.date }
  (transaction, transactions ++ [transaction])

/-- `updateTransaction` from `unnamed/part_001`: `null` and no change when the
id is absent; otherwise overwrite the four fields in place. -/
def updateTransaction (transactions : List RecordA) (id : String) (updates : FormData) :
    Option RecordA × List RecordA :=
  match jsFindIndex (fun t => t.id = id) transactions with
  | none => (none, transactions)
  | some idx =>
    let old := transactions.getD idx default
    let updated : RecordA :=
      { id := old.id
        description := (jsTrim updates.description.toList).asString
        amountCents := parseCents updates.amount
        category := updates.category
        date := updates.date }
    (some updated, transactions.set idx updated)

/-- `deleteTransaction` from `unnamed/part_001`: `false` and no change when the
id is absent; otherwise splice the record out. -/
def deleteTransaction (transactions : List RecordA) (id : String) :
    Bool × List RecordA :=
  match jsFindIndex (fun t => t.id = id) transactions with
  | none => (false, transactions)
  | some idx => (true, transactions.eraseIdx idx)

/-- The per-element shape check of `importFromJSON` in `SCRIPTS/storage.js`:
every element must carry a non-empty `id`, `description`, `category`, `date`
(and a defined `amount`, which the model's records always have).  No per-field
pattern validation is performed. -/
def importOk (data : List RecordA) : Bool :=
  data.all (fun t => t.id ≠ "" && t.description ≠ "" && t.category ≠ "" && t.date ≠ "")

/-- `importTransactions` from `unnamed/part_001`: wholesale replacement, no
validation. -/
def importTransactions (data : List RecordA) : List RecordA := data

/-- `clearAllTransactions` from `unnamed/part_001`. -/
def clearAllTransactions : List RecordA := []

/-- Result of the form submission path in `unnamed/part_002`. -/
inductive FormRes where
  | ok
  | err (errors : FieldErrors)
deriving Repr, DecidableEq

/-- The add branch of `handleFormSubmit` in `unnamed/part_002`: run
`validateTransaction`; on failure display the errors and do not touch the
store; on success call `addTransaction`. -/
def formCreate (transactions : List RecordA) (freshId : String)
    (tooFuture tooPast : String → Bool) (d : FormData) : FormRes × List RecordA :=
  let validation := validateTransaction tooFuture tooPast d
  if validation.isValid then (.ok, (addTransaction transactions freshId d).2)
  else (.err validation.errors, transactions)

/-- The edit branch of `handleFormSubmit` in `unnamed/part_002`: validate,
then `updateTransaction`. -/
def formUpdate (transactions : List RecordA) (id : String)
    (tooFuture tooPast : String → Bool) (d : FormData) : FormRes × List RecordA :=
  let validation := validateTransaction tooFuture tooPast d
  if validation.isValid then (.ok, (updateTransaction transactions id d).2)
  else (.err validation.errors, transactions)

/-- States of the `unnamed/part_001` store reachable from the empty store via
the application's end-to-end flows: form-validated add and update, delete,
shape-checked import (`importFromJSON` gate), and clear — exactly the
operations named by claim C1. -/
inductive ReachableA : List RecordA → Prop where
  | start : ReachableA []
  | addStep (s : List RecordA) (freshId : String) (tF tP : String → Bool) (d : FormData) :
      ReachableA s → ReachableA (formCreate s freshId tF tP d).2
  | updateStep (s : List RecordA) (id : String) (tF tP : String → Bool) (d : FormData) :
      ReachableA s → ReachableA (formUpdate s id tF tP d).2
  | deleteStep (s : List RecordA) (id : String) :
      ReachableA s → ReachableA (deleteTransaction s id).2
  | importStep (s : List RecordA) (data : List RecordA) :
      ReachableA s → importOk data = true → ReachableA (importTransactions data)
  | clearStep (s : List RecordA) : ReachableA s → ReachableA clearAllTransactions

/-! ## `SCRIPTS/search.js` -/

/-- `amount.toString()` — the decimal rendering of a cents value: integer part,
then the decimal digits with trailing zeros dropped (JavaScript prints the
shortest round-tripping decimal, which for values in exact hundredths is
exactly this). -/
def centsToString (c : Int) : String :=
  let sign := if c < 0 then "-" else ""
  let n := c.natAbs
  let whole := n / 100
  let frac := n % 100
  if frac = 0 then sign ++ toString whole
  else if frac % 10 = 0 then sign ++ toString whole ++ "." ++ toString (frac / 10)
  else
    sign ++ toString whole ++ "." ++
      (if frac < 10 then "0" ++ toString frac else toString frac)

/-- A compiled JavaScript `RegExp`, abstracted: `global` is the `g` flag (which
`compileRegex` always sets) and `find s i` is the engine primitive "first
match in `s` starting the search at index `i`", returning the index just past
the match (`lastIndex` after a successful `test`), or `none` when there is no
match at or after `i`. -/
structure JsRegex where
  global : Bool
  find : List Char → Nat → Option Nat

/-- `regex.test(s)` with `regex.lastIndex = lastIndex` beforehand: a global
regex searches from `lastIndex`, sets `lastIndex` past the match on success
and resets it to 0 on failure; a non-global regex searches from 0 and leaves
`lastIndex` alone. -/
def jsTest (re : JsRegex) (s : List Char) (lastIndex : Nat) : Bool × Nat :=
  if re.global then
    match re.find s lastIndex with
    | some e => (true, e)
    | none => (false, 0)
  else
    ((re.find s 0).isSome, lastIndex)

/-- The filter callback of `searchTransactions` in `SCRIPTS/search.js`, with
the regex's mutable `lastIndex` threaded explicitly.  The source resets
`lastIndex` to 0 after each failed field test and after a full miss, but each
successful `test` returns `true` immediately with no reset — the callback then
leaves `lastIndex` at the end of that match for the next record. -/
def matchRecord (re : JsRegex) (t : RecordA) (lastIndex : Nat) : Bool × Nat :=
  let r1 := jsTest re t.description.toList lastIndex
  if r1.1 then (true, r1.2)
  else
    let r2 := jsTest re (centsToString t.amountCents).toList 0
    if r2.1 then (true, r2.2)
    else
      let r3 := jsTest re t.category.toList 0
      if r3.1 then (true, r3.2)
      else
        let r4 := jsTest re t.date.toList 0
        if r4.1 then (true, r4.2)
        else (false, 0)

/-- `Array.prototype.filter` over the records, threading the regex state in
array order. -/
def searchFilter (re : JsRegex) : List RecordA → Nat → List RecordA × Nat
  | [], lastIndex => ([], lastIndex)
  | t :: ts, lastIndex =>
    let m := matchRecord re t lastIndex
    let rest := searchFilter re ts m.2
    (if m.1 then t :: rest.1 else rest.1, rest.2)

/-- `searchTransactions` from `SCRIPTS/search.js`: with no regex return all
transactions, else filter.  A freshly constructed `RegExp` has
`lastIndex = 0`. -/
def searchTransactions (transactions : List RecordA) (regex : Option JsRegex) :
    List RecordA :=
  match regex with
  | none => transactions
  | some re => (searchFilter re transactions 0).1

/-- `compileRegex` from `SCRIPTS/search.js`.  `construct` is the `RegExp`
constructor applied to the pattern and the case-sensitivity choice: it returns
`none` exactly when `new RegExp` throws on that pattern (invalid syntax), and
the compiled stateful regex otherwise. -/
def compileRegex (construct : String → Bool → Option JsRegex)
    (pattern : String) (caseSensitive : Bool) : Option JsRegex :=
  if pattern = "" || (jsTrim pattern.toList).isEmpty then none
  else construct pattern caseSensitive

/-- The engine primitive for a one-character case-insensitive pattern such as
`/o/gi`: first position at or after `i` holding the letter (either case),
returning the index just past it. -/
def charFind (c : Char) (s : List Char) (i : Nat) : Option Nat :=
  match (s.drop i).findIdx? (fun d => lowerAscii d = lowerAscii c) with
  | some j => some (i + j + 1)
  | none => none

/-- The compiled form of a one-letter pattern under flags `gi`, as
`compileRegex` produces for case-insensitive search. -/
def charRegexGI (c : Char) : JsRegex := { global := true, find := charFind c }

/-! ## `calculateStats` from `unnamed/part_001` -/

/-- One `categoryTotals[t.category] += t.amount` step: add into the existing
entry, or record a new key at the end.  The association list keeps the keys in
first-insertion order; the enumeration order `Object.entries` actually
produces is applied separately by `jsEntries` below. -/
def addCat : List (String × Int) → String → Int → List (String × Int)
  | [], c, a => [(c, a)]
  | (c', a') :: rest, c, a =>
    if c' = c then (c', a' + a) :: rest else (c', a') :: addCat rest c a

/-- The contents of the `categoryTotals` object after the `forEach`
accumulation, keyed in first-insertion order. -/
def categoryTotalsOf (transactions : List RecordA) : List (String × Int) :=
  transactions.foldl (fun acc t => addCat acc t.category t.amountCents) []

/-- Whether a property key is a canonical array index, the keys JavaScript
objects enumerate first: the canonical decimal numeral (`0`, or a nonzero
digit followed by digits — the same shape as `intPartOk`) of a value below
2^32 − 1. -/
def isArrayIndexKey (s : String) : Bool :=
  intPartOk s.toList && digitsToNat s.toList ≤ 4294967294

/-- Insert an entry into a list sorted ascending by the numeric value of the
key. -/
def insertByKey (e : String × Int) : List (String × Int) → List (String × Int)
  | [] => [e]
  | x :: xs =>
    if digitsToNat e.1.toList ≤ digitsToNat x.1.toList then e :: x :: xs
    else x :: insertByKey e xs

/-- Insertion sort by the numeric value of the key. -/
def sortByKeyNum : List (String × Int) → List (String × Int)
  | [] => []
  | x :: xs => insertByKey x (sortByKeyNum xs)

/-- The enumeration order of `Object.entries` (ECMA-262
`OrdinaryOwnPropertyKeys`): the canonical-array-index keys first, in ascending
numeric order, then the remaining string keys in insertion order.  For the
validated categories of this app (letters, spaces, hyphens) no key is an
array index and the enumeration is exactly insertion order, but unvalidated
paths (bulk import) can introduce numeric category strings. -/
def jsEntries (l : List (String × Int)) : List (String × Int) :=
  sortByKeyNum (l.filter (fun e => isArrayIndexKey e.1)) ++
    l.filter (fun e => !isArrayIndexKey e.1)

/-- The `for (const [category, amount] of Object.entries(categoryTotals))`
loop: starting from `topCategory = 'None'` and `maxAmount = 0`, take a new top
only on a strictly greater sum. -/
def topCatLoop : List (String × Int) → String → Int → String
  | [], top, _ => top
  | (c, a) :: rest, top, maxAmount =>
    if a > maxAmount then topCatLoop rest c a else topCatLoop rest top maxAmount

/-- The budget block of the statistics result.  `percentUsed` is a rational
(the JS number abstracted exactly). -/
structure BudgetInfo where
  capCents : Int
  remainingCents : Int
  percentUsed : ℚ
deriving Repr, DecidableEq

/-- The statistics object returned by `calculateStats`. -/
structure Stats where
  totalCount : Nat
  totalSpentCents : Int
  categoryTotals : List (String × Int)
  topCategory : String
  last7DaysCents : Int
  budget : BudgetInfo
deriving Repr, DecidableEq

/-- `calculateStats` from `unnamed/part_001`.  `budgetCapCents` is
`state.settings.budgetCap`; the clock-dependent date filter
`new Date(t.date) >= sevenDaysAgo` is abstracted as the predicate
`inLast7Days`.  Note the source computes
`percentUsed = totalSpent > 0 ? (totalSpent / budgetCap) * 100 : 0` and then
clamps with `Math.min(percentUsed, 100)`, while `remaining` is unclamped. -/
def calculateStats (transactions : List RecordA) (budgetCapCents : Int)
    (inLast7Days : String → Bool) : Stats :=
  let totalCount := transactions.length
  let totalSpent := transactions.foldl (fun sum t => sum + t.amountCents) 0
  let categoryTotals := categoryTotalsOf transactions
  let topCategory := topCatLoop (jsEntries categoryTotals) "None" 0
  let last7 := (transactions.filter (fun t => inLast7Days t.date)).foldl
    (fun sum t => sum + t.amountCents) 0
  let remaining := budgetCapCents - totalSpent
  let percentUsed : ℚ :=
    if totalSpent > 0 then ((totalSpent : ℚ) / (budgetCapCents : ℚ)) * 100 else 0
  { totalCount
    totalSpentCents := totalSpent
    categoryTotals
    topCategory
    last7DaysCents := last7
    budget :=
      { capCents := budgetCapCents
        remainingCents := remaining
        percentUsed := min percentUsed 100 } }

/-! ## Spec-side helper definitions used by the claim theorems -/

/-- The numeric value (in currency units, exact) of an amount string, as in
claim C3: cents divided by 100. -/
def specAmountValue (s : String) : ℚ := (centsOf s.toList : ℚ) / 100

/-- Claim-side total: the sum of all amounts of a record sequence. -/
def sumCents (ts : List RecordA) : Int := (ts.map (·.amountCents)).sum

/-! ## Concrete fixtures for counterexamples and witnesses -/

/-- An import payload element that passes the `importFromJSON` shape check
(all required fields present and non-empty) but whose description `"ab"` fails
`validateDescription` (length < 3). -/
def badRec : RecordA :=
  { id := "imported-1", description := "ab", amountCents := 500,
    category := "Food", date := "2025-01-01" }

/-- A record with a negative amount (income/expense sign is the caller's
convention): the claimed percent-used formula would be negative here, but the
code reports 0. -/
def negRec : RecordA :=
  { id := "n1", description := "Refund", amountCents := -5000,
    category := "Food", date := "2025-01-01" }

/-- First search fixture: description `"xo"` — the match of `/o/gi` ends at
index 2, where the stale `lastIndex` is left for the next record. -/
def searchRec1 : RecordA :=
  { id := "s1", description := "xo", amountCents := 500,
    category := "Misc", date := "2025-01-01" }

/-- Second search fixture: description `"ox"` matches `/o/gi` from position 0,
but no field contains an `o` at or after position 2. -/
def searchRec2 : RecordA :=
  { id := "s2", description := "ox", amountCents := 500,
    category := "Misc", date := "2025-01-01" }

/-- A fully valid create input for the `SCRIPTS/state.js` store. -/
def goodCreateData : CreateData :=
  { description := "Lunch at cafe", amountStr := "12.5",
    category := "Food", date := "2025-01-01" }

/-- A create input whose description is too short after cleaning. -/
def shortCreateData : CreateData :=
  { description := "ab", amountStr := "12.5",
    category := "Food", date := "2025-01-01" }

/-- A form input whose description is too short (rejected by
`validateTransaction`). -/
def shortFormData : FormData :=
  { description := "ab", amount := "12.50", category := "Food", date := "2025-01-01" }

/-- A record of the `SCRIPTS/state.js` store used by the C7 witness. -/
def someRecB : RecordB :=
  { id := "keep-1", description := "Lunch at cafe", amountStr := "12.5",
    category := "Food", date := "2025-01-01" }

/-! ## Helper lemmas -/

theorem jsFindIndex_eq_none {α : Type} (p : α → Bool) :
    ∀ l : List α, (∀ a ∈ l, p a = false) → jsFindIndex p l = none := by
  intro l
  induction l with
  | nil => intro _; rfl
  | cons a t ih =>
    intro h
    have ha : p a = false := h a (by simp)
    have ht : jsFindIndex p t = none := ih (fun b hb => h b (List.mem_cons_of_mem a hb))
    simp [jsFindIndex, ha, ht]

theorem jsTrim_eq_nil_iff (l : List Char) : jsTrim l = [] ↔ ∀ c ∈ l, jsWs c = true := by
  unfold jsTrim
  rw [List.reverse_eq_nil_iff, List.dropWhile_eq_nil_iff]
  constructor
  · intro h c hc
    have hsplit := List.takeWhile_append_dropWhile jsWs l
    rw [← hsplit] at hc
    rcases List.mem_append.mp hc with h1 | h2
    · exact List.mem_takeWhile_imp h1
    · exact h c (List.mem_reverse.mpr h2)
  · intro h c hc
    exact h c ((List.dropWhile_sublist jsWs).subset (List.mem_reverse.mp hc))

theorem intPart_head_not_ws {c : Char} {cs : List Char}
    (h : intPartOk (c :: cs) = true) : jsWs c = false := by
  cases hw : jsWs c
  · rfl
  · exfalso
    simp only [jsWs, Bool.or_eq_true, decide_eq_true_eq] at hw
    simp only [intPartOk, Bool.or_eq_true, Bool.and_eq_true, decide_eq_true_eq] at h
    rcases h with ⟨hc, -⟩ | ⟨⟨h1, h2⟩, -⟩ <;>
      rcases hw with ((((((rfl | rfl) | rfl) | rfl) | rfl) | rfl) | rfl) | rfl <;>
        first
          | exact absurd hc (by decide)
          | exact absurd h1 (by decide)
          | exact absurd h2 (by decide)

theorem amountShape2_head {c : Char} {t : List Char}
    (h : amountShape2 (c :: t) = true) : jsWs c = false := by
  have h' := h
  simp only [amountShape2, Bool.and_eq_true] at h'
  obtain ⟨hip, -⟩ := h'
  rw [List.takeWhile_cons] at hip
  by_cases hc : c = '.'
  · rw [if_neg (by simp [hc])] at hip
    simp [intPartOk] at hip
  · rw [if_pos (by simp [hc])] at hip
    exact intPart_head_not_ws hip

theorem amountShape2_not_empty {l : List Char} (h : amountShape2 l = true) :
    l.isEmpty = false ∧ (jsTrim l).isEmpty = false := by
  cases l with
  | nil => simp [amountShape2, intPartOk] at h
  | cons c t =>
    have hcw : jsWs c = false := amountShape2_head h
    refine ⟨by simp, ?_⟩
    rcases hJ : jsTrim (c :: t) with _ | ⟨x, xs⟩
    · have := (jsTrim_eq_nil_iff (c :: t)).mp hJ c (by simp)
      rw [this] at hcw
      cases hcw
    · simp

theorem foldl_amount_eq (ts : List RecordA) : ∀ init : Int,
    ts.foldl (fun s t => s + t.amountCents) init = init + sumCents ts := by
  induction ts with
  | nil => intro init; simp [sumCents]
  | cons t ts ih =>
    intro init
    simp only [List.foldl_cons, sumCents, List.map_cons, List.sum_cons]
    rw [ih (init + t.amountCents)]
    simp only [sumCents]
    ring

/-- C1 (amended): every state of the `SCRIPTS/state.js` store reachable from
the empty store through the validating mutators `create` and `update` together
with `remove` and `clear` contains only records that the composite validator
`validateRecord` accepts — every record passed validation at the moment it was
written.  (The bulk paths — `importTransactions`, `replaceAll`, `appendMany` —
bypass per-field validation and are excluded; the counterexample shows the
original claim fails through the import path.) -/
theorem c1_store_invariant_amended (s : List RecordB) (h : ReachableV s) :
    ∀ r ∈ s, (validateRecord r).ok = true := by
  induction h with
  | empty => simp
  | createStep s freshId defaultDate d hs ih =>
    intro r hr
    by_cases hv : (validateRecord (prepareCreate freshId defaultDate d)).ok = true
    · rw [show (create s freshId defaultDate d).2 =
          s ++ [prepareCreate freshId defaultDate d] from by simp [create, hv]] at hr
      rcases List.mem_append.mp hr with h1 | h2
      · exact ih r h1
      · rw [List.mem_singleton.mp h2]
        exact hv
    · rw [show (create s freshId defaultDate d).2 = s from by simp [create, hv]] at hr
      exact ih r hr
  | updateStep s id u hs ih =>
    intro r hr
    rcases hidx : jsFindIndex (fun rec => rec.id = id) s with _ | idx
    · rw [show (update s id u).2 = s from by simp [update, hidx]] at hr
      exact ih r hr
    · by_cases hv : (validateRecord (mergeRecord (s[idx]?.getD default) u)).ok = true
      · rw [show (update s id u).2 =
            s.set idx (mergeRecord (s[idx]?.getD default) u) from by
              simp [update, hidx, hv]] at hr
        rcases List.mem_or_eq_of_mem_set hr with h1 | h2
        · exact ih r h1
        · rw [h2]
          exact hv
      · rw [show (update s id u).2 = s from by simp [update, hidx, hv]] at hr
        exact ih r hr
  | removeStep s id hs ih =>
    intro r hr
    have hr' : r ∈ s.filter (fun rec => rec.id ≠ id) := hr
    exact ih r (List.mem_filter.mp hr').1
  | clearStep s hs ih => simp

/-- Witness for C1 (amended): the store after one successful `create` from the
empty store is reachable, and the record it holds re-validates. -/
theorem c1_store_invariant_witness :
    (validateRecord (prepareCreate "txn_1" "2025-01-01" goodCreateData)).ok = true :=
  c1_store_invariant_amended _
    (ReachableV.createStep [] "txn_1" "2025-01-01" goodCreateData ReachableV.empty)
    (prepareCreate "txn_1" "2025-01-01" goodCreateData)
    (by decide)

/-- Counterexample to C1 as stated: through the import path (including the
`importFromJSON` shape gate, which only checks field presence), the
`unnamed/part_001` store reaches a state holding a record whose description
`"ab"` the validation rules reject — the store holds a record that would fail
re-validation. -/
theorem c1_counterexample_import_bypasses_validation :
    ReachableA [badRec] ∧ (validateDescription badRec.description).isValid = false :=
  ⟨ReachableA.importStep [] [badRec] ReachableA.start (by decide), by decide⟩

/-- C2 (code evaluation at the failing input): `validateDescription` ACCEPTS
`"Lunch  today"` although the claim, the spec, the code comment and the error
message all say a double interior space must be rejected — the description
regex `/^\S(?:.*\S)?$/` only rejects leading/trailing whitespace, never
interior double spaces.  The duplicate-word rule (`"lunch lunch"`) does work
as claimed. -/
theorem c2_double_space_accepted :
    (validateDescription "Lunch  today").isValid = true ∧
    (validateDescription "lunch lunch").isValid = false :=
  ⟨by decide, by decide⟩

/-- C4 (code evaluation at the failing input): `searchTransactions` is NOT
independent of preceding records.  With the compiled pattern `/o/gi`, the
record with description `"ox"` is kept when searched alone, but dropped when
it follows the record with description `"xo"`: the successful test on `"xo"`
returns without resetting `lastIndex`, so the next record's description test
starts at index 2 and misses the `o`. -/
theorem c4_search_depends_on_preceding_records :
    searchTransactions [searchRec1, searchRec2] (some (charRegexGI 'o')) = [searchRec1] ∧
    searchTransactions [searchRec2] (some (charRegexGI 'o')) = [searchRec2] :=
  ⟨by decide, by decide⟩

/-- C5: for every transaction list and every pattern on which the `RegExp`
constructor throws (modelled: `construct` returns `none`), `compileRegex`
reports the invalid pattern as a null compiled regex and the search falls back
to returning the full input list unchanged — nothing is raised to the
caller. -/
theorem c5_invalid_pattern_returns_all (ts : List RecordA) (pattern : String)
    (caseSensitive : Bool) (construct : String → Bool → Option JsRegex)
    (h : construct pattern caseSensitive = none) :
    compileRegex construct pattern caseSensitive = none ∧
    searchTransactions ts (compileRegex construct pattern caseSensitive) = ts := by
  have hc : compileRegex construct pattern caseSensitive = none := by
    unfold compileRegex
    split_ifs with h1
    · rfl
    · exact h
  refine ⟨hc, ?_⟩
  rw [hc]
  rfl

/-- Witness for C5: a constructor that rejects its pattern (as `new RegExp`
does on `"("`) yields a null compiled regex and an unchanged result list. -/
theorem c5_witness :
    compileRegex (fun _ _ => none) "(" false = none ∧
    searchTransactions [searchRec1] (compileRegex (fun _ _ => none) "(" false) =
      [searchRec1] :=
  c5_invalid_pattern_returns_all [searchRec1] "(" false (fun _ _ => none) rfl

/-- C10: for every pattern that is empty or whitespace-only, `compileRegex`
returns the null compiled regex regardless of the constructor, and searching
any list with it returns the full list — an empty search box shows all
transactions. -/
theorem c10_blank_pattern_shows_all (ts : List RecordA) (pattern : String)
    (caseSensitive : Bool) (construct : String → Bool → Option JsRegex)
    (h : jsTrim pattern.toList = []) :
    compileRegex construct pattern caseSensitive = none ∧
    searchTransactions ts (compileRegex construct pattern caseSensitive) = ts := by
  have hc : compileRegex construct pattern caseSensitive = none := by
    unfold compileRegex
    rw [if_pos]
    have h' : (jsTrim pattern.toList).isEmpty = true := by rw [h]; rfl
    rw [h']
    exact Bool.or_true _
  refine ⟨hc, ?_⟩
  rw [hc]
  rfl

/-- Witness for C10: a whitespace-only pattern compiles to the null regex even
though the constructor would have succeeded, and the search returns the whole
list. -/
theorem c10_witness :
    compileRegex (fun _ _ => some (charRegexGI 'o')) "   " false = none ∧
    searchTransactions [searchRec1, searchRec2]
      (compileRegex (fun _ _ => some (charRegexGI 'o')) "   " false) =
      [searchRec1, searchRec2] :=
  c10_blank_pattern_shows_all [searchRec1, searchRec2] "   " false
    (fun _ _ => some (charRegexGI 'o')) (by decide)

/-- C6: a create with any invalid field mutates nothing and reports the
field-error mapping, in both variants: `create` of `SCRIPTS/state.js` (which
validates the prepared record itself) and the form-submission path of
`unnamed/part_002` feeding `addTransaction` (where `validateTransaction` gates
the store call). -/
theorem c6_invalid_create_no_mutation :
    (∀ (records : List RecordB) (freshId defaultDate : String) (d : CreateData),
        (validateRecord (prepareCreate freshId defaultDate d)).ok = false →
        create records freshId defaultDate d =
          (CreateRes.err (validateRecord (prepareCreate freshId defaultDate d)).errors,
            records)) ∧
    (∀ (transactions : List RecordA) (freshId : String)
        (tooFuture tooPast : String → Bool) (d : FormData),
        (validateTransaction tooFuture tooPast d).isValid = false →
        formCreate transactions freshId tooFuture tooPast d =
          (FormRes.err (validateTransaction tooFuture tooPast d).errors,
            transactions)) := by
  constructor
  · intro records freshId defaultDate d hv
    simp [create, hv]
  · intro transactions freshId tooFuture tooPast d hv
    simp [formCreate, hv]

/-- Witness for C6: a create input with a too-short description fails both
variants without touching the (empty) store. -/
theorem c6_witness :
    create [] "txn_1" "2025-01-01" shortCreateData =
      (CreateRes.err
        (validateRecord (prepareCreate "txn_1" "2025-01-01" shortCreateData)).errors,
        []) ∧
    formCreate [] "txn_9" (fun _ => false) (fun _ => false) shortFormData =
      (FormRes.err
        (validateTransaction (fun _ => false) (fun _ => false) shortFormData).errors,
        []) :=
  ⟨c6_invalid_create_no_mutation.1 [] "txn_1" "2025-01-01" shortCreateData (by decide),
   c6_invalid_create_no_mutation.2 [] "txn_9" (fun _ => false) (fun _ => false)
     shortFormData (by decide)⟩

/-- C7: updating an id that no record carries returns the not-found failure
and leaves the record sequence untouched, in both variants:
`updateTransaction` of `unnamed/part_001` (returns `null`) and `update` of
`SCRIPTS/state.js` (returns the `not_found` error). -/
theorem c7_update_unknown_id_no_mutation :
    (∀ (transactions : List RecordA) (id : String) (updates : FormData),
        (∀ t ∈ transactions, t.id ≠ id) →
        updateTransaction transactions id updates = (none, transactions)) ∧
    (∀ (records : List RecordB) (id : String) (data : UpdateData),
        (∀ r ∈ records, r.id ≠ id) →
        update records id data = (UpdateRes.notFound, records)) := by
  constructor
  · intro transactions id updates h
    have hnone : jsFindIndex (fun t => t.id = id) transactions = none :=
      jsFindIndex_eq_none _ transactions (fun t ht => by simp [h t ht])
    simp [updateTransaction, hnone]
  · intro records id data h
    have hnone : jsFindIndex (fun r => r.id = id) records = none :=
      jsFindIndex_eq_none _ records (fun r hrr => by simp [h r hrr])
    simp [update, hnone]

/-- Witness for C7: updating a missing id on singleton stores returns
not-found and the stores are unchanged. -/
theorem c7_witness :
    updateTransaction [searchRec1] "missing" shortFormData = (none, [searchRec1]) ∧
    update [someRecB] "missing"
      { description := none, amountStr := none, category := none, date := none } =
      (UpdateRes.notFound, [someRecB]) :=
  ⟨c7_update_unknown_id_no_mutation.1 [searchRec1] "missing" shortFormData (by decide),
   c7_update_unknown_id_no_mutation.2 [someRecB] "missing"
     { description := none, amountStr := none, category := none, date := none }
     (by decide)⟩

/-- C3: `validateAmount` accepts a string exactly when it matches the
two-decimal monetary shape (digit sequence with no superfluous leading zero,
or the single digit 0, optionally followed by a decimal point and exactly two
digits) and its numeric value is neither 0 nor greater than 999,999; in
particular `"12.5"` and `"0"` are rejected and `"12.50"` is accepted. -/
theorem c3_validateAmount_characterization :
    (∀ s : String,
      (validateAmount s).isValid = true ↔
        (amountShape2 s.toList = true ∧ specAmountValue s ≠ 0 ∧
          specAmountValue s ≤ 999999)) ∧
    (validateAmount "12.5").isValid = false ∧
    (validateAmount "0").isValid = false ∧
    (validateAmount "12.50").isValid = true := by
  refine ⟨?_, by decide, by decide, by decide⟩
  intro s
  constructor
  · intro hacc
    simp only [validateAmount] at hacc
    split_ifs at hacc with h1 h2 h3 h4
    have hs : amountShape2 s.toList = true := by simpa using h2
    refine ⟨hs, ?_, ?_⟩
    · unfold specAmountValue
      exact div_ne_zero (Nat.cast_ne_zero.mpr h4) (by norm_num)
    · unfold specAmountValue
      rw [div_le_iff₀ (by norm_num : (0:ℚ) < 100)]
      have h3' : centsOf s.toList ≤ 99999900 := not_lt.mp h3
      calc ((centsOf s.toList : ℕ) : ℚ) ≤ ((99999900 : ℕ) : ℚ) := by
            exact_mod_cast h3'
      _ ≤ 999999 * 100 := by norm_num
  · rintro ⟨hs, hnz, hle⟩
    have hne := amountShape2_not_empty hs
    have hc0 : ¬ centsOf s.toList = 0 := by
      intro h0
      apply hnz
      unfold specAmountValue
      rw [h0]
      norm_num
    have hcle : ¬ centsOf s.toList > 99999900 := by
      intro hgt
      have hbig : (999999 : ℚ) < specAmountValue s := by
        unfold specAmountValue
        rw [lt_div_iff₀ (by norm_num : (0:ℚ) < 100)]
        calc (999999 : ℚ) * 100 = ((99999900 : ℕ) : ℚ) := by norm_num
        _ < ((centsOf s.toList : ℕ) : ℚ) := by exact_mod_cast hgt
      exact absurd hle (not_le.mpr hbig)
    have g1 : ¬ ((s.toList.isEmpty || (jsTrim s.toList).isEmpty) = true) := by
      rw [hne.1, hne.2]
      simp
    have g2 : ¬ ((!amountShape2 s.toList) = true) := by
      rw [hs]
      simp
    unfold validateAmount
    rw [if_neg g1, if_neg g2, if_neg hcle, if_neg hc0]

/-- C9 (amended): the aggregator always reports the unclamped remaining
budget `cap − total spent` (which may be negative); percent used equals
`total spent / cap × 100` clamped to a maximum of 100 when total spent is
positive, and is reported as 0 when total spent is zero or negative (the
source guards the division with `totalSpent > 0 ? … : 0`, so the claimed
formula does not apply to non-positive totals — see the counterexample). -/
theorem c9_budget_amended (ts : List RecordA) (cap : Int) (inWin : String → Bool) :
    (calculateStats ts cap inWin).budget.remainingCents = cap - sumCents ts ∧
    (0 < sumCents ts →
      (calculateStats ts cap inWin).budget.percentUsed =
        min ((sumCents ts : ℚ) / (cap : ℚ) * 100) 100) ∧
    (sumCents ts ≤ 0 → (calculateStats ts cap inWin).budget.percentUsed = 0) := by
  have hsum : ts.foldl (fun sum t => sum + t.amountCents) 0 = sumCents ts := by
    rw [foldl_amount_eq ts 0, zero_add]
  refine ⟨?_, ?_, ?_⟩
  · rw [show (calculateStats ts cap inWin).budget.remainingCents =
        cap - ts.foldl (fun sum t => sum + t.amountCents) 0 from rfl, hsum]
  · intro hpos
    have hpos' : ts.foldl (fun sum t => sum + t.amountCents) 0 > 0 := by
      rw [hsum]; exact hpos
    rw [show (calculateStats ts cap inWin).budget.percentUsed =
        min (if ts.foldl (fun sum t => sum + t.amountCents) 0 > 0 then
              (((ts.foldl (fun sum t => sum + t.amountCents) 0 : Int) : ℚ) / ((cap : Int) : ℚ)) * 100
            else 0) 100 from rfl]
    rw [if_pos hpos', hsum]
  · intro hnp
    have hnp' : ¬ (ts.foldl (fun sum t => sum + t.amountCents) 0 > 0) := by
      rw [hsum]; exact not_lt.mpr hnp
    rw [show (calculateStats ts cap inWin).budget.percentUsed =
        min (if ts.foldl (fun sum t => sum + t.amountCents) 0 > 0 then
              (((ts.foldl (fun sum t => sum + t.amountCents) 0 : Int) : ℚ) / ((cap : Int) : ℚ)) * 100
            else 0) 100 from rfl]
    rw [if_neg hnp']
    norm_num

/-- Witness for C9 (amended): a positive-total store shows the clamped
formula, and a negative-total store shows the 0 report; the remaining budget
is the unclamped difference in both. -/
theorem c9_budget_witness :
    (calculateStats [searchRec1] 1000 (fun _ => false)).budget.remainingCents =
      1000 - sumCents [searchRec1] ∧
    (calculateStats [searchRec1] 1000 (fun _ => false)).budget.percentUsed =
      min ((sumCents [searchRec1] : ℚ) / ((1000 : Int) : ℚ) * 100) 100 ∧
    (calculateStats [negRec] 10000 (fun _ => false)).budget.percentUsed = 0 :=
  ⟨(c9_budget_amended [searchRec1] 1000 (fun _ => false)).1,
   (c9_budget_amended [searchRec1] 1000 (fun _ => false)).2.1 (by decide),
   (c9_budget_amended [negRec] 10000 (fun _ => false)).2.2 (by decide)⟩

/-- Counterexample to C9 as stated: with one record of amount −50.00 and cap
100.00, the claimed formula `total / cap × 100` clamped at 100 gives −50, but
the code reports percent used 0 (its ternary replaces any non-positive total
by 0 before clamping); the unclamped remaining 150.00 is still reported. -/
theorem c9_counterexample_negative_total :
    (calculateStats [negRec] 10000 (fun _ => false)).budget.percentUsed = 0 ∧
    min (((calculateStats [negRec] 10000 (fun _ => false)).totalSpentCents : ℚ) /
          ((10000 : Int) : ℚ) * 100) 100 = -50 ∧
    (0 : ℚ) ≠ -50 ∧
    (calculateStats [negRec] 10000 (fun _ => false)).budget.remainingCents = 15000 := by
  refine ⟨by decide, ?_, by norm_num, by decide⟩
  have h1 : (calculateStats [negRec] 10000 (fun _ => false)).totalSpentCents = -5000 := by
    decide
  rw [h1, show (((-5000 : Int) : ℚ) / ((10000 : Int) : ℚ) * 100) = -50 by norm_num]
  exact min_eq_left (by norm_num)
